import Mathlib

/-!
Verification of the lora-mesh link layer: the broadcast message codec
(`src/stack/message/broadcast.rs`) and the LoStik radio driver
(`src/hardware/lostik.rs`), shallowly embedded as executable Lean
definitions.  Bytes are modelled as `Nat`, Rust `Result`/panics as
explicit sum types, channels as lists or streams of values.
-/

/- ## Broadcast message codec (`src/stack/message/broadcast.rs`) -/

/-- Modelled from the spec: an IPv4 address is four octets
(`std::net::Ipv4Addr` is not part of the given sources). -/
structure Ipv4Addr where
  a : Nat
  b : Nat
  c : Nat
  d : Nat
deriving DecidableEq, Repr

/-- Modelled from the spec: `Ipv4Addr::octets` returns the four octets
in order. -/
def Ipv4Addr.octets (ip : Ipv4Addr) : List Nat :=
  [ip.a, ip.b, ip.c, ip.d]

/-- Modelled from the spec: `FrameHeader` is the header subset of a
`Frame` (id, type, sender, route), `src/stack/frame.rs` not being among
the given sources. -/
structure FrameHeader where
  frameid : Nat
  msgtype : Nat
  sender : Nat
  route : List Nat
deriving DecidableEq, Repr

/-- Modelled from the spec: a `Frame` is version/flags byte, frame id,
message-type tag, sender id, route-length byte, route bytes, payload
bytes (`src/stack/frame.rs` not being among the given sources). -/
structure Frame where
  version : Nat
  frameid : Nat
  msgtype : Nat
  sender : Nat
  routeoffset : Nat
  route : List Nat
  payload : List Nat
deriving DecidableEq, Repr

/-- Modelled from the spec: `Frame::header` exposes the header subset. -/
def Frame.header (f : Frame) : FrameHeader :=
  { frameid := f.frameid, msgtype := f.msgtype, sender := f.sender, route := f.route }

/-- Modelled from the spec: `parse_bool` (`src/stack/util.rs`) decodes a
gateway-flag byte, 0 = false, 1 = true, and any other byte is not a
valid boolean encoding and yields a parse error (`none`). -/
def parse_bool (b : Nat) : Option Bool :=
  if b = 0 then some false
  else if b = 1 then some true
  else none

/-- Modelled from the spec: `parse_byte` (`src/stack/util.rs`) encodes a
boolean as a byte, false = 0, true = 1. -/
def parse_byte (b : Bool) : Nat :=
  if b then 1 else 0

/-- Modelled from the spec: `parse_ipv4` (`src/stack/util.rs`) builds an
IPv4 address from a four-byte slice. -/
def parse_ipv4 (l : List Nat) : Ipv4Addr :=
  { a := l.getD 0 0, b := l.getD 1 0, c := l.getD 2 0, d := l.getD 3 0 }

/-- Modelled from the spec: the `MessageType::Broadcast` tag byte. -/
def broadcastTypeTag : Nat := 1

/-- `BroadcastMessage` (`src/stack/message/broadcast.rs` lines 12-17). -/
structure BroadcastMessage where
  header : Option FrameHeader
  isgateway : Bool
  ipOffset : Nat
  ipaddr : Option Ipv4Addr
deriving DecidableEq, Repr

/-- Outcome of `BroadcastMessage::from_frame`: the Rust function either
returns `Ok(msg)` or panics (out-of-bounds payload indexing, or
`.unwrap()` of a failed `parse_bool`); it has no `Err` return path. -/
inductive FromFrameResult where
  | ok (m : BroadcastMessage)
  | panics
deriving DecidableEq, Repr

/-- `BroadcastMessage::from_frame` (`broadcast.rs` lines 20-37).
`data[0]` and `data[1]` panic when the payload is too short;
`parse_bool(data[0]).unwrap()` panics when byte 0 is not 0/1;
`&data[2..6]` panics when the payload is shorter than 6 bytes. -/
def BroadcastMessage.from_frame (f : Frame) : FromFrameResult :=
  let data := f.payload
  match data[0]? with
  | none => .panics
  | some b0 =>
    match parse_bool b0 with
    | none => .panics
    | some isgateway =>
      match data[1]? with
      | none => .panics
      | some offset =>
        if offset > 0 then
          if 6 ≤ data.length then
            .ok { header := some f.header, isgateway := isgateway,
                  ipOffset := offset,
                  ipaddr := some (parse_ipv4 ((data.drop 2).take 4)) }
          else .panics
        else
          .ok { header := some f.header, isgateway := isgateway,
                ipOffset := offset, ipaddr := none }

/-- `BroadcastMessage::to_frame` (`broadcast.rs` lines 39-67): payload is
the gateway-flag byte, then offset byte 4 followed by the four address
octets when an address is present, else offset byte 0. -/
def BroadcastMessage.to_frame (m : BroadcastMessage) (frameid sender : Nat)
    (route : List Nat) : Frame :=
  let payload : List Nat :=
    match m.ipaddr with
    | some ip => parse_byte m.isgateway :: 4 :: ip.octets
    | none => [parse_byte m.isgateway, 0]
  { version := 0, frameid := frameid, msgtype := broadcastTypeTag,
    sender := sender, routeoffset := route.length, route := route,
    payload := payload }

/-- A frame with the given payload and fixed header fields, used to probe
`from_frame` on concrete payloads. -/
def mkFrame (payload : List Nat) : Frame :=
  { version := 0, frameid := 1, msgtype := broadcastTypeTag, sender := 2,
    routeoffset := 0, route := [], payload := payload }

/- ## Radio command interface (`src/hardware/lostik.rs`)

The inbound line channel (fed by `serialloop`) is modelled as a stream
`lines : Nat → String` together with a cursor: `readerlinesrx.recv()`
returns `lines i` and advances the cursor (a blocking receive on the
never-closed unbounded channel always eventually yields a line). -/

/-- One hex digit, as decoded by the `hex` crate. -/
def hexDigit (c : Char) : Option Nat :=
  if c >= '0' ∧ c <= '9' then some (c.toNat - '0'.toNat)
  else if c >= 'a' ∧ c <= 'f' then some (c.toNat - 'a'.toNat + 10)
  else if c >= 'A' ∧ c <= 'F' then some (c.toNat - 'A'.toNat + 10)
  else none

/-- `hex::decode` on a character list: succeeds iff the length is even
and every character is a hex digit. -/
def hexPairs : List Char → Option (List Nat)
  | [] => some []
  | [_] => none
  | a :: b :: rest =>
    match hexDigit a, hexDigit b, hexPairs rest with
    | some ha, some hb, some r => some ((16 * ha + hb) :: r)
    | _, _, _ => none

/-- `hex::decode` on a string. -/
def hexDecode (s : String) : Option (List Nat) :=
  hexPairs s.data

/-- `str::starts_with` on character lists (all protocol lines are
ASCII, so Rust's byte view and the character view agree). -/
def listStarts : List Char → List Char → Bool
  | _, [] => true
  | [], _ :: _ => false
  | a :: as, b :: bs => a == b && listStarts as bs

/-- The `radio_rx ` notification marker (9 characters). -/
def rxMarker : List Char := ['r', 'a', 'd', 'i', 'o', '_', 'r', 'x', ' ']

/-- Outcome of a radio command helper: whether it returned `Ok`, the
cursor past every line it consumed from the inbound line channel, and
the command lines it wrote to the serial port, in order. -/
structure CmdOutcome where
  ok : Bool
  next : Nat
  writes : List String
deriving DecidableEq, Repr

/-- `LoStik::rxstart` (`lostik.rs` lines 288-301): write `radio rx 0`,
receive one line; if it is `radio_err`, receive one more; `assert_response`
against `ok`; on success run `blueledon` (one GPIO write plus one
acknowledgement receive). -/
def rxstart (lines : Nat → String) (i : Nat) : CmdOutcome :=
  let r0 := lines i
  let resp := if r0 = "radio_err" then lines (i + 1) else r0
  let j := if r0 = "radio_err" then i + 2 else i + 1
  if resp = "ok" then
    { ok := true, next := j + 1,
      writes := ["radio rx 0", "sys set pindig GPIO11 1"] }
  else
    { ok := false, next := j, writes := ["radio rx 0"] }

/-- Outcome of `LoStik::onrx` / `LoStik::rxstop`: `Ok`, an I/O error
(`Err`), or a panic (string slicing out of bounds). -/
inductive StopResult where
  | ok
  | ioerr
  | panics
deriving DecidableEq, Repr

/-- `LoStik::onrx` (`lostik.rs` lines 250-261): a line starting with
`radio_rx ` is an inbound packet; the hex text after byte 10 is decoded
and delivered on the packet channel (`some bytes`), a hex-decode failure
is an `Err`, and slicing `msg.as_bytes()[10..]` panics when the line is
shorter than 10 bytes.  Any other line is ignored (`Ok`, nothing
delivered). -/
def onrx (msg : String) : StopResult × Option (List Nat) :=
  if listStarts msg.data rxMarker then
    if msg.length < 10 then (.panics, none)
    else
      match hexPairs (msg.data.drop 10) with
      | some bytes => (.ok, some bytes)
      | none => (.ioerr, none)
  else (.ok, none)

/-- Outcome of `rxstop`: result, the packets delivered on the inbound
packet channel, the cursor past the consumed lines, and the written
command lines. -/
structure StopOutcome where
  result : StopResult
  delivered : List (List Nat)
  next : Nat
  writes : List String
deriving DecidableEq, Repr

/-- `LoStik::rxstop` (`lostik.rs` lines 304-320): write `radio rxstop`,
receive one line; if it starts with `radio_rx ` (race with an incoming
packet), run `onrx` on it — propagating its error with `?` — and receive
one further unvalidated line; the acknowledgement content is never
checked (the `assert_response` is commented out); finally `blueledoff`
(one GPIO write plus one acknowledgement receive), and return `Ok`. -/
def rxstop (lines : Nat → String) (i : Nat) : StopOutcome :=
  let checkresp := lines i
  if listStarts checkresp.data rxMarker then
    match onrx checkresp with
    | (.ok, d) =>
      { result := .ok, delivered := d.toList, next := i + 3,
        writes := ["radio rxstop", "sys set pindig GPIO11 0"] }
    | (.ioerr, _) =>
      { result := .ioerr, delivered := [], next := i + 1,
        writes := ["radio rxstop"] }
    | (.panics, _) =>
      { result := .panics, delivered := [], next := i + 1,
        writes := ["radio rxstop"] }
  else
    { result := .ok, delivered := [], next := i + 2,
      writes := ["radio rxstop", "sys set pindig GPIO11 0"] }

/-- The built-in default configuration command list
(`lostik.rs` lines 206-221). -/
def defaultInit : List String :=
  ["sys get ver", "mac reset", "mac pause", "radio get mod",
   "radio get freq", "radio get pwr", "radio get sf", "radio get bw",
   "radio get cr", "radio get wdt", "radio set pwr 22",
   "radio set sf sf12", "radio set bw 125", "radio set cr 4/5",
   "radio set wdt 60000"]

/-- The configuration loop of `LoStik::init` (`lostik.rs` lines 231-238)
with `LoStik::oninit` (lines 241-248) inlined: write each non-empty
command line, then receive exactly one response line; a response equal to
`invalid_param` aborts with a configuration error.  Returns (success,
cursor past the consumed responses, written command lines in order). -/
def initLoop (cmds : List String) (lines : Nat → String) (i : Nat) :
    Bool × Nat × List String :=
  match cmds with
  | [] => (true, i, [])
  | c :: rest =>
    if 0 < c.length then
      if lines i = "invalid_param" then (false, i + 1, [c])
      else
        let r := initLoop rest lines (i + 1)
        (r.1, r.2.1, c :: r.2.2)
    else initLoop rest lines i

/- ## Line reader task (`serialloop`, `lostik.rs` lines 41-53) -/

/-- One result of `SerialIO::readln` as seen by `serialloop`: a line
(`Ok(Some(l))`), an end-of-stream (`Ok(None)`), or a hard I/O error
(`Err(_)`, on which the `.expect` aborts the task). -/
inductive ReadResult where
  | line (s : String)
  | eof
  | ioError
deriving DecidableEq, Repr

/-- `serialloop` (`lostik.rs` lines 41-53) over a finite prefix of read
results: each successful line is sent on the inbound line channel, an
end-of-stream is skipped (`continue`), and a hard error kills the task
(`expect`).  Returns the published lines in order and whether the task
died. -/
def serialloop : List ReadResult → List String × Bool
  | [] => ([], false)
  | ReadResult.line s :: rest =>
    let r := serialloop rest
    (s :: r.1, r.2)
  | ReadResult.eof :: rest => serialloop rest
  | ReadResult.ioError :: _ => ([], true)

/-- Is a read result not a hard error? -/
def ReadResult.notErr : ReadResult → Bool
  | .ioError => false
  | _ => true

/-- The line carried by a successful read result. -/
def ReadResult.getLine : ReadResult → Option String
  | .line s => some s
  | _ => none

/- ## Arbitration loop (`radioloop`, `lostik.rs` lines 70-161)

Frames are opaque byte sequences; a `Nat` identifier suffices for the
loop's logic.  The rate limiter is abstracted by its observable
behaviour: a finite budget of `check()` outcomes, consumed one per call
(an exhausted budget answers every further `check()` with failure, as a
leaky bucket does once its tokens are spent).  The outbound queue
(`txreader`) and the inbound line channel (`readerlinesrx`) are lists;
`try_recv` pops the head when present. -/

/-- A hardware-facing action of the arbitration loop, in issue order:
a transmitted frame, a `rxstart` / `rxstop` command round-trip, or a
non-blocking poll of the inbound line channel. -/
inductive Event where
  | tx (f : Nat)
  | rxstart
  | rxstop
  | poll
deriving DecidableEq, Repr

/-- State of one `radioloop` iteration: the `isrx` flag, the deferred
frame `extratx`, the outbound queue, the remaining rate-limiter budget,
and the pending inbound lines. -/
structure LoopState where
  isrx : Bool
  extratx : Option Nat
  queue : List Nat
  checks : List Bool
  inbound : List String
deriving DecidableEq, Repr

/-- `limiter.check()`: consume the next budgeted outcome; an exhausted
budget fails. -/
def lcheck : List Bool → Bool × List Bool
  | [] => (false, [])
  | b :: rest => (b, rest)

/-- The inner drain loop (`lostik.rs` lines 108-114): keep calling
`check()` until it fails; after each success, `try_recv` the queue and
transmit the frame if one was pulled.  Returns the remaining budget, the
remaining queue, and the transmit events in order. -/
def burst : List Bool → List Nat → List Bool × List Nat × List Event
  | [], q => ([], q, [])
  | c :: cs, q =>
    if c then
      match q with
      | [] => burst cs []
      | f :: q2 =>
        let r := burst cs q2
        (r.1, r.2.1, Event.tx f :: r.2.2)
    else (cs, q, [])

/-- Result of the pull/transmit phase of one iteration. -/
structure PhaseA where
  isrx : Bool
  extratx : Option Nat
  queue : List Nat
  checks : List Bool
  evs : List Event
deriving DecidableEq, Repr

/-- The pull/transmit phase of one `radioloop` iteration
(`lostik.rs` lines 87-149), mirroring the source branch by branch:

* deferred frame present (lines 139-149): one `check()`; on success
  `rxstop` if receiving, transmit the deferred frame, clear it; on
  failure nothing happens;
* no deferred frame, empty queue: `try_recv` fails (line 91: `rxstart`
  if not receiving); the line-98 guard and the line-120 guard each still
  call `check()` (left operand of `&&`), both guards are false, and the
  line-131 `else` is a no-op since `isrx` is already true;
* no deferred frame, queue head `f`: `check()` at line 98; on success
  `rxstop` if receiving, transmit `f`, run the drain loop, then the
  unconditional `rxstart` of line 116; the line-120 guard calls
  `check()` again with `next` still `Ok` — on its failure the
  already-transmitted `f` is stashed as the deferred frame (the
  fall-through the source comments call the rate-limited case); on the
  line-98 `check()` failing, the line-120 `check()` decides between
  stashing `f` (failure) and silently dropping it (success, the
  line-131 `else`), both ensuring `rxstart`. -/
def stepA (isrx : Bool) (extratx : Option Nat) (queue : List Nat)
    (checks : List Bool) : PhaseA :=
  match extratx with
  | some f =>
    let p := lcheck checks
    if p.1 then
      { isrx := false, extratx := none, queue := queue, checks := p.2,
        evs := (if isrx then [Event.rxstop] else []) ++ [Event.tx f] }
    else
      { isrx := isrx, extratx := some f, queue := queue, checks := p.2,
        evs := [] }
  | none =>
    match queue with
    | [] =>
      let p1 := lcheck checks
      let p2 := lcheck p1.2
      { isrx := true, extratx := none, queue := [], checks := p2.2,
        evs := if isrx then [] else [Event.rxstart] }
    | f :: q1 =>
      let p1 := lcheck checks
      if p1.1 then
        let b := burst p1.2 q1
        let p2 := lcheck b.1
        if p2.1 then
          { isrx := true, extratx := none, queue := b.2.1, checks := p2.2,
            evs := (if isrx then [Event.rxstop] else []) ++ [Event.tx f]
                     ++ b.2.2 ++ [Event.rxstart] }
        else
          { isrx := true, extratx := some f, queue := b.2.1, checks := p2.2,
            evs := (if isrx then [Event.rxstop] else []) ++ [Event.tx f]
                     ++ b.2.2 ++ [Event.rxstart] }
      else
        let p2 := lcheck p1.2
        if p2.1 then
          { isrx := true, extratx := none, queue := q1, checks := p2.2,
            evs := if isrx then [] else [Event.rxstart] }
        else
          { isrx := true, extratx := some f, queue := q1, checks := p2.2,
            evs := if isrx then [] else [Event.rxstart] }

/-- The inbound poll phase (`lostik.rs` lines 151-159): only when `isrx`
is set, `try_recv` the line channel; a received line is handed to `onrx`
(whose result the source discards) and `rxstart` re-arms the receiver. -/
def pollPhase (isrx : Bool) (inbound : List String) :
    List String × List Event :=
  if isrx then
    match inbound with
    | _ :: rest => (rest, [Event.poll, Event.rxstart])
    | [] => ([], [Event.poll])
  else (inbound, [])

/-- One full `radioloop` iteration. -/
def step (s : LoopState) : LoopState × List Event :=
  let a := stepA s.isrx s.extratx s.queue s.checks
  let pp := pollPhase a.isrx s.inbound
  ({ isrx := a.isrx, extratx := a.extratx, queue := a.queue,
     checks := a.checks, inbound := pp.1 },
   a.evs ++ pp.2)

/-- `n` iterations of `radioloop`, collecting the events in order. -/
def runLoop : Nat → LoopState → LoopState × List Event
  | 0, s => (s, [])
  | n + 1, s =>
    let r := step s
    let r2 := runLoop n r.1
    (r2.1, r.2 ++ r2.2)

/-- The loop state right after the prologue (`lostik.rs` lines 75-77):
receiving, no deferred frame. -/
def initState (queue : List Nat) (checks : List Bool)
    (inbound : List String) : LoopState :=
  { isrx := true, extratx := none, queue := queue, checks := checks,
    inbound := inbound }

/-- Replay a trace against the physical radio mode (`true` = receiving):
`rxstart`/`rxstop` switch the mode, a transmit is legal only while not
receiving, a poll of the inbound line channel only while receiving.
Returns the final mode, or `none` on the first illegal action. -/
def modeRun : Bool → List Event → Option Bool
  | m, [] => some m
  | m, Event.tx _ :: rest => if m then none else modeRun false rest
  | m, Event.poll :: rest => if m then modeRun true rest else none
  | _, Event.rxstart :: rest => modeRun true rest
  | _, Event.rxstop :: rest => modeRun false rest

/- ## Theorems -/

/-- C3: for every valid `BroadcastMessage` (offset 0 iff the address is
absent and 4 when present), `from_frame` applied to the frame produced by
`to_frame` reproduces the `isgateway`, `ipOffset` and `ipaddr` fields;
and the value with gateway flag `false` and address `172.16.0.5` encodes
to payload bytes `[0, 4, 172, 16, 0, 5]`. -/
theorem C3_broadcast_roundtrip :
    (∀ (v : BroadcastMessage) (frameid sender : Nat) (route : List Nat),
       (v.ipaddr = none → v.ipOffset = 0) →
       (∀ ip, v.ipaddr = some ip → v.ipOffset = 4) →
       BroadcastMessage.from_frame (v.to_frame frameid sender route)
         = FromFrameResult.ok
             { header := some ((v.to_frame frameid sender route).header),
               isgateway := v.isgateway, ipOffset := v.ipOffset,
               ipaddr := v.ipaddr })
  ∧ (BroadcastMessage.to_frame
       { header := none, isgateway := false, ipOffset := 4,
         ipaddr := some { a := 172, b := 16, c := 0, d := 5 } } 1 2 [3]).payload
       = [0, 4, 172, 16, 0, 5] := by
  refine ⟨?_, by decide⟩
  intro v frameid sender route h0 h4
  rcases v with ⟨hd, g, off, ip⟩
  cases ip with
  | none =>
    have h00 : off = 0 := h0 rfl
    subst h00
    cases g <;>
      simp [BroadcastMessage.to_frame, BroadcastMessage.from_frame,
            parse_byte, parse_bool]
  | some a =>
    have hoff : off = 4 := h4 a rfl
    subst hoff
    rcases a with ⟨x, y, z, w⟩
    cases g <;>
      simp [BroadcastMessage.to_frame, BroadcastMessage.from_frame,
            parse_byte, parse_bool, parse_ipv4, Ipv4Addr.octets]

/-- C3 witness: the round-trip theorem applied to the concrete
IPv4-bearing value with gateway flag `false` and address `172.16.0.5`. -/
theorem C3_broadcast_roundtrip_witness :
    BroadcastMessage.from_frame
        (BroadcastMessage.to_frame
          { header := none, isgateway := false, ipOffset := 4,
            ipaddr := some { a := 172, b := 16, c := 0, d := 5 } } 1 2 [3])
      = FromFrameResult.ok
          { header := some ((BroadcastMessage.to_frame
              { header := none, isgateway := false, ipOffset := 4,
                ipaddr := some { a := 172, b := 16, c := 0, d := 5 } } 1 2 [3]).header),
            isgateway := false, ipOffset := 4,
            ipaddr := some { a := 172, b := 16, c := 0, d := 5 } } :=
  C3_broadcast_roundtrip.1
    { header := none, isgateway := false, ipOffset := 4,
      ipaddr := some { a := 172, b := 16, c := 0, d := 5 } } 1 2 [3]
    (fun h => absurd h (by decide)) (fun _ _ => rfl)

/-- C4: the claim says a payload whose byte 0 is neither 0 nor 1 makes
`from_frame` return a payload-parse `Err`; the code instead calls
`.unwrap()` on the failed `parse_bool` and panics (the function has no
`Err` return path at all), as evaluated here on payload `[2, 0]`. -/
theorem C4_invalid_bool_panics :
    BroadcastMessage.from_frame (mkFrame [2, 0]) = FromFrameResult.panics := by
  decide

/-- C5: the payload emitted by `to_frame` has offset byte 0 iff the
address is absent; a present address yields offset byte 4 followed by
exactly the four octets; an address-absent value encodes to exactly
`[flag, 0]`. -/
theorem C5_offset_encoding (v : BroadcastMessage) (frameid sender : Nat)
    (route : List Nat) :
    ((v.to_frame frameid sender route).payload[1]? = some 0 ↔ v.ipaddr = none)
  ∧ (∀ ip, v.ipaddr = some ip →
      (v.to_frame frameid sender route).payload
        = parse_byte v.isgateway :: 4 :: ip.octets)
  ∧ (v.ipaddr = none →
      (v.to_frame frameid sender route).payload = [parse_byte v.isgateway, 0]) := by
  rcases v with ⟨hd, g, off, ip⟩
  cases ip <;> simp [BroadcastMessage.to_frame, Ipv4Addr.octets]

/-- C5 witness: the encoding theorem applied to an address-absent value
with gateway flag `true`. -/
theorem C5_offset_encoding_witness :
    (BroadcastMessage.to_frame
      { header := none, isgateway := true, ipOffset := 0, ipaddr := none }
      7 8 [9]).payload = [parse_byte true, 0] :=
  (C5_offset_encoding
    { header := none, isgateway := true, ipOffset := 0, ipaddr := none }
    7 8 [9]).2.2 rfl

/-- C10: `from_frame` is partial at the public interface: a one-byte
payload panics (out-of-bounds read of byte 1), a two-byte payload with
non-zero byte 1 panics (out-of-bounds slice `2..6`), and whenever the
payload has at least 6 bytes with a valid byte 0 and a non-zero byte 1,
exactly the four bytes at positions 2..6 are read as the address,
regardless of byte 1's value. -/
theorem C10_from_frame_oob :
    BroadcastMessage.from_frame (mkFrame [0]) = FromFrameResult.panics
  ∧ BroadcastMessage.from_frame (mkFrame [0, 3]) = FromFrameResult.panics
  ∧ (∀ (p : List Nat) (g : Bool) (b1 : Nat),
       6 ≤ p.length → p[0]? = some (parse_byte g) → p[1]? = some b1 →
       b1 ≠ 0 →
       BroadcastMessage.from_frame (mkFrame p)
         = FromFrameResult.ok
             { header := some (mkFrame p).header, isgateway := g,
               ipOffset := b1,
               ipaddr := some (parse_ipv4 ((p.drop 2).take 4)) }) := by
  refine ⟨by decide, by decide, ?_⟩
  intro p g b1 hlen h0 h1 hne
  have hb : parse_bool (parse_byte g) = some g := by
    cases g <;> simp [parse_bool, parse_byte]
  simp [BroadcastMessage.from_frame, mkFrame, h0, h1, hb,
        Nat.pos_of_ne_zero hne, hlen]

/-- C10 witness: the positive part applied to the seven-byte payload
`[1, 9, 10, 20, 30, 40, 99]`, whose byte 1 is 9 yet whose address is
read from bytes 2..6. -/
theorem C10_from_frame_oob_witness :
    6 ≤ ([1, 9, 10, 20, 30, 40, 99] : List Nat).length
  ∧ BroadcastMessage.from_frame (mkFrame [1, 9, 10, 20, 30, 40, 99])
      = FromFrameResult.ok
          { header := some (mkFrame [1, 9, 10, 20, 30, 40, 99]).header,
            isgateway := true, ipOffset := 9,
            ipaddr := some { a := 10, b := 20, c := 30, d := 40 } } :=
  ⟨by decide,
   C10_from_frame_oob.2.2 [1, 9, 10, 20, 30, 40, 99] true 9
     (by decide) (by decide) (by decide) (by decide)⟩

/-- C6: `rxstart` writes the receive-enable command `radio rx 0` first;
the asserted response is the second line read iff the first line is the
harmless token `radio_err`, else the first line; the call returns `Ok`
iff that asserted line is `ok` (any other line is a protocol-mismatch
error); the cursor accounts for one response read, a second one exactly
when the first was `radio_err`, and the indicator acknowledgement read
on success. -/
theorem C6_rxstart_protocol (lines : Nat → String) (i : Nat) :
    ((rxstart lines i).writes.head? = some "radio rx 0")
  ∧ ((rxstart lines i).ok = true ↔
       (if lines i = "radio_err" then lines (i + 1) else lines i) = "ok")
  ∧ ((rxstart lines i).next
       = i + (if lines i = "radio_err" then 2 else 1)
           + (if (if lines i = "radio_err" then lines (i + 1) else lines i) = "ok"
              then 1 else 0)) := by
  by_cases h0 : lines i = "radio_err"
  · by_cases h1 : lines (i + 1) = "ok" <;> simp [rxstart, h0, h1]
  · by_cases h1 : lines i = "ok" <;> simp [rxstart, h0, h1]

/-- C7 counterexample: a stop-receive whose first response line is the
notification `radio_rx zz` (undecodable hex) makes `rxstop` return an
I/O error and read no further acknowledgement line, while the claim says
it returns `Ok` after reading exactly one further line. -/
theorem C7_rxstop_counterexample :
    (rxstop (fun _ => "radio_rx zz") 0).result = StopResult.ioerr
  ∧ (rxstop (fun _ => "radio_rx zz") 0).next = 1 := by
  decide

/-- C7 amended: provided a first response line that is an inbound-packet
notification reaches past the 10-character prefix skip and its hex text
decodes, `rxstop` writes the receive-disable command and reads one
response line; a notification line is decoded and delivered and exactly
one further (unvalidated) acknowledgement line is read; in either case
the result is `Ok` whatever the acknowledgement contains. -/
theorem C7_rxstop_amended (lines : Nat → String) (i : Nat)
    (h : listStarts (lines i).data rxMarker = true →
         10 ≤ (lines i).length ∧
         ∃ bytes, hexPairs ((lines i).data.drop 10) = some bytes) :
    ((rxstop lines i).result = StopResult.ok)
  ∧ ((rxstop lines i).writes.head? = some "radio rxstop")
  ∧ (listStarts (lines i).data rxMarker = true →
       (rxstop lines i).next = i + 3 ∧
       ∃ bytes, hexPairs ((lines i).data.drop 10) = some bytes ∧
                (rxstop lines i).delivered = [bytes])
  ∧ (listStarts (lines i).data rxMarker = false →
       (rxstop lines i).next = i + 2 ∧ (rxstop lines i).delivered = []) := by
  by_cases hs : listStarts (lines i).data rxMarker = true
  · obtain ⟨hlen, bytes, hhex⟩ := h hs
    have hnot : ¬ (lines i).length < 10 := by omega
    refine ⟨?_, ?_, fun _ => ⟨?_, bytes, hhex, ?_⟩, fun hf => by simp [hs] at hf⟩ <;>
      simp [rxstop, onrx, hs, hnot, hhex]
  · have hs' : listStarts (lines i).data rxMarker = false := by
      simpa using hs
    refine ⟨?_, ?_, fun ht => by simp [hs'] at ht, fun _ => ⟨?_, ?_⟩⟩ <;>
      simp [rxstop, hs']

/-- C7 amended witness: the amended theorem applied to a stream whose
first line is the well-formed notification `radio_rx  0a2f` (the LoStik
notification carries two spaces, which is why the source skips 10
bytes). -/
theorem C7_rxstop_amended_witness :
    ((rxstop (fun n => if n = 0 then "radio_rx  0a2f" else "whatever") 0).result
       = StopResult.ok)
  ∧ ((rxstop (fun n => if n = 0 then "radio_rx  0a2f" else "whatever") 0).next = 3) := by
  have happ := C7_rxstop_amended
    (fun n => if n = 0 then "radio_rx  0a2f" else "whatever") 0
    (fun _ => ⟨by decide, [10, 47], by decide⟩)
  exact ⟨happ.1, (happ.2.2.1 (by decide)).1⟩

/-- Helper for the configuration loop, at an arbitrary channel cursor:
success iff no consumed response is `invalid_param`; on success every
command is written with one response each; the first bad response aborts
immediately after it. -/
theorem initLoop_spec (cmds : List String) (lines : Nat → String) (i : Nat)
    (h : ∀ c ∈ cmds, 0 < c.length) :
    ((initLoop cmds lines i).1 = true ↔
       ∀ k < cmds.length, lines (i + k) ≠ "invalid_param")
  ∧ ((∀ k < cmds.length, lines (i + k) ≠ "invalid_param") →
       initLoop cmds lines i = (true, i + cmds.length, cmds))
  ∧ (∀ k < cmds.length, lines (i + k) = "invalid_param" →
       (∀ j < k, lines (i + j) ≠ "invalid_param") →
       initLoop cmds lines i = (false, i + k + 1, cmds.take (k + 1))) := by
  induction cmds generalizing i with
  | nil => simp [initLoop]
  | cons c rest ih =>
    have hc : 0 < c.length := h c (by simp)
    have hrest : ∀ x ∈ rest, 0 < x.length := fun x hx => h x (by simp [hx])
    by_cases hb : lines i = "invalid_param"
    · refine ⟨?_, ?_, ?_⟩
      · simp only [initLoop, hc, if_pos, hb]
        constructor
        · intro hfalse
          cases hfalse
        · intro hall
          exact absurd hb (by simpa using hall 0 (by simp))
      · intro hall
        exact absurd hb (by simpa using hall 0 (by simp))
      · intro k hk hbad hmin
        have hk0 : k = 0 := by
          by_contra hne
          exact hmin 0 (Nat.pos_of_ne_zero hne) (by simpa using hb)
        subst hk0
        simp [initLoop, hc, hb]
    · obtain ⟨ih1, ih2, ih3⟩ := ih (i + 1) hrest
      have hred : initLoop (c :: rest) lines i
          = ((initLoop rest lines (i + 1)).1,
             (initLoop rest lines (i + 1)).2.1,
             c :: (initLoop rest lines (i + 1)).2.2) := by
        simp [initLoop, hc, hb]
      have hshift : ∀ P : Nat → Prop,
          (∀ k < rest.length + 1, P k) ↔ (P 0 ∧ ∀ k < rest.length, P (k + 1)) := by
        intro P
        constructor
        · intro hall
          exact ⟨hall 0 (by omega), fun k hk => hall (k + 1) (by omega)⟩
        · rintro ⟨h0, hs⟩ k hk
          cases k with
          | zero => exact h0
          | succ k => exact hs k (by omega)
      refine ⟨?_, ?_, ?_⟩
      · rw [hred]
        simp only [List.length_cons]
        rw [hshift fun k => lines (i + k) ≠ "invalid_param"]
        constructor
        · intro htrue
          refine ⟨by simpa using hb, fun k hk => ?_⟩
          have := ih1.mp htrue k hk
          simpa [Nat.add_assoc, Nat.add_comm 1 k] using this
        · rintro ⟨-, hs⟩
          apply ih1.mpr
          intro k hk
          have := hs k hk
          simpa [Nat.add_assoc, Nat.add_comm 1 k] using this
      · intro hall
        rw [hred]
        have hr : initLoop rest lines (i + 1) = (true, i + 1 + rest.length, rest) := by
          apply ih2
          intro k hk
          have := hall (k + 1) (by simp; omega)
          simpa [Nat.add_assoc, Nat.add_comm 1 k] using this
        rw [hr]
        simp only [List.length_cons, Prod.ext_iff]
        refine ⟨trivial, by omega, trivial⟩
      · intro k hk hbad hmin
        cases k with
        | zero => exact absurd (by simpa using hbad) hb
        | succ k =>
          rw [hred]
          have hr : initLoop rest lines (i + 1)
              = (false, i + 1 + k + 1, rest.take (k + 1)) := by
            apply ih3 k (by simp at hk; omega)
            · have := hbad
              simpa [Nat.add_assoc, Nat.add_comm 1 k] using this
            · intro j hj
              have := hmin (j + 1) (by omega)
              simpa [Nat.add_assoc, Nat.add_comm 1 j] using this
          rw [hr]
          simp only [List.take_succ_cons, Prod.ext_iff]
          refine ⟨trivial, by omega, trivial⟩

/-- C8: for every configuration command list (the built-in default list,
or any caller-supplied list of command lines), the configuration loop of
`init` writes each command line and reads exactly one response line after
each; it returns `Ok` iff no response equals `invalid_param`, succeeding
with all commands written, and fails with a configuration error
immediately after the first `invalid_param` response. -/
theorem C8_init_config (cmds : List String) (lines : Nat → String)
    (h : ∀ c ∈ cmds, 0 < c.length) :
    ((initLoop cmds lines 0).1 = true ↔
       ∀ k < cmds.length, lines k ≠ "invalid_param")
  ∧ ((∀ k < cmds.length, lines k ≠ "invalid_param") →
       initLoop cmds lines 0 = (true, cmds.length, cmds))
  ∧ (∀ k < cmds.length, lines k = "invalid_param" →
       (∀ j < k, lines j ≠ "invalid_param") →
       initLoop cmds lines 0 = (false, k + 1, cmds.take (k + 1))) := by
  have := initLoop_spec cmds lines 0 h
  simpa using this

/-- C8 witness: the built-in default command list against a responder
that answers `ok` to every line completes without error, having written
all fifteen commands and read fifteen responses. -/
theorem C8_init_config_witness :
    (∀ c ∈ defaultInit, 0 < c.length)
  ∧ initLoop defaultInit (fun _ => "ok") 0
      = (true, defaultInit.length, defaultInit) := by
  refine ⟨by decide, (C8_init_config defaultInit (fun _ => "ok") (by decide)).2.1 ?_⟩
  intro k _
  decide

/-- C9: the line reader task publishes on the inbound-line channel
exactly the successfully read lines, in receipt order; an end-of-stream
result is skipped with nothing published and no error; a hard I/O error
is fatal to the task (and only that). -/
theorem C9_serialloop_publishes (reads : List ReadResult) :
    ((serialloop reads).1
       = (reads.takeWhile ReadResult.notErr).filterMap ReadResult.getLine)
  ∧ ((serialloop reads).2 = true ↔ ReadResult.ioError ∈ reads)
  ∧ (∀ rest, serialloop (ReadResult.eof :: rest) = serialloop rest) := by
  refine ⟨?_, ?_, fun rest => rfl⟩ <;>
  · induction reads with
    | nil => simp [serialloop]
    | cons r rest ih =>
      cases r <;>
        simp [serialloop, ReadResult.notErr, ReadResult.getLine, ih]

/-- Replaying a concatenated trace chains the mode through the first
part. -/
theorem modeRun_append (m : Bool) (a b : List Event) :
    modeRun m (a ++ b) = (modeRun m a).bind fun m2 => modeRun m2 b := by
  induction a generalizing m with
  | nil => simp [modeRun]
  | cons e rest ih =>
    cases e with
    | tx f => cases m <;> simp [modeRun, ih]
    | poll => cases m <;> simp [modeRun, ih]
    | rxstart => simp [modeRun, ih]
    | rxstop => simp [modeRun, ih]

/-- The drain loop transmits only while the radio is stopped: its whole
event list is legal in transmitting mode and leaves that mode. -/
theorem modeRun_burst (cks : List Bool) (q : List Nat) :
    modeRun false (burst cks q).2.2 = some false := by
  induction cks generalizing q with
  | nil => simp [burst, modeRun]
  | cons c cs ih =>
    cases c with
    | false => simp [burst, modeRun]
    | true =>
      cases q with
      | nil => simpa [burst] using ih []
      | cons f q2 => simp [burst, modeRun, ih]

/-- The poll phase is legal in the mode it is given and preserves it. -/
theorem modeRun_pollPhase (isrx : Bool) (inb : List String) :
    modeRun isrx (pollPhase isrx inb).2 = some isrx := by
  cases isrx <;> cases inb <;> simp [pollPhase, modeRun]

/-- The pull/transmit phase of one iteration is mode-legal starting from
the mode recorded in `isrx`, and ends in the mode recorded in the
resulting `isrx`. -/
theorem modeRun_stepA (isrx : Bool) (x : Option Nat) (q : List Nat)
    (cks : List Bool) :
    modeRun isrx (stepA isrx x q cks).evs = some (stepA isrx x q cks).isrx := by
  cases x with
  | some f =>
    rcases cks with _ | ⟨c, cs⟩
    · simp [stepA, lcheck, modeRun]
    · cases c with
      | false => simp [stepA, lcheck, modeRun]
      | true => cases isrx <;> simp [stepA, lcheck, modeRun, modeRun_append]
  | none =>
    cases q with
    | nil => cases isrx <;> simp [stepA, modeRun]
    | cons f q1 =>
      rcases cks with _ | ⟨c, cs⟩
      · cases isrx <;> simp [stepA, lcheck, modeRun]
      · cases c with
        | false =>
          rcases cs with _ | ⟨c2, cs2⟩
          · cases isrx <;> simp [stepA, lcheck, modeRun]
          · cases c2 <;> cases isrx <;> simp [stepA, lcheck, modeRun]
        | true =>
          have hb := modeRun_burst cs q1
          rcases hcs : (burst cs q1).1 with _ | ⟨c2, cs2⟩
          · cases isrx <;>
              simp [stepA, lcheck, hcs, modeRun_append, modeRun, hb]
          · cases c2 <;> cases isrx <;>
              simp [stepA, lcheck, hcs, modeRun_append, modeRun, hb]

/-- One full iteration is mode-legal from the mode recorded in `isrx`
and ends in the mode recorded in the new `isrx`. -/
theorem modeRun_step (s : LoopState) :
    modeRun s.isrx (step s).2 = some (step s).1.isrx := by
  have ha := modeRun_stepA s.isrx s.extratx s.queue s.checks
  have hp := modeRun_pollPhase (stepA s.isrx s.extratx s.queue s.checks).isrx
    s.inbound
  simp [step, modeRun_append, ha, hp]

/-- C2: in every reachable state of the arbitration loop — any number of
iterations from any starting state whose `isrx` flag agrees with the
physical radio mode — the emitted trace is mode-legal: a `tx` command is
only issued while the mode is Transmitting (`isrx = false`), the inbound
line channel is only polled while the mode is Receiving (`isrx = true`),
and after every iteration the physical mode again equals the loop's
`isrx` flag. -/
theorem C2_arbitration_invariant (n : Nat) (s : LoopState) :
    modeRun s.isrx (runLoop n s).2 = some (runLoop n s).1.isrx := by
  induction n generalizing s with
  | zero => simp [runLoop, modeRun]
  | succ k ih =>
    simp [runLoop, modeRun_append, modeRun_step s, ih (step s).1]

/-- C1: the claim says every enqueued frame is transmitted exactly once.
The code violates it: with one frame `0` enqueued and a rate limiter
that grants the line-98 check, then denies the drain-loop check and the
line-120 check (its tokens spent), then grants again in the next window,
the loop transmits frame `0`, falls through into the rate-limited branch
with `next` still holding the already-sent frame, stashes it as the
deferred frame, and transmits it a second time in the next iteration. -/
theorem C1_deferred_frame_double_transmit :
    (runLoop 2 (initState [0] [true, false, false, true] [])).2
      = [Event.rxstop, Event.tx 0, Event.rxstart, Event.poll,
         Event.rxstop, Event.tx 0]
  ∧ ((runLoop 2 (initState [0] [true, false, false, true] [])).2.countP
       (fun e => decide (e = Event.tx 0))) = 2 := by
  decide
